import Mathlib

/-!
Shallow embedding of the per-connection pipeline of the Proxy-Network-Server
repository (`proxy/handler.go`), together with the Go standard-library string,
`net` and `net/url` routines that the handler calls.  Go strings are byte
sequences; they are modelled here as `List Char` with one `Char` per byte
(the inputs of interest are ASCII, and every routine below manipulates the
list exactly as the Go code manipulates the byte string).  Fallible Go
functions returning `(..., error)` are modelled with `Option`.
-/

namespace Proxy

/-- ASCII case folding of one character, as `strings.ToLower` acts on ASCII bytes. -/
def lowerC (c : Char) : Char :=
  if 'A' ≤ c ∧ c ≤ 'Z' then Char.ofNat (c.toNat + 32) else c

/-- ASCII case raising of one character, as `strings.ToUpper` acts on ASCII bytes. -/
def upperC (c : Char) : Char :=
  if 'a' ≤ c ∧ c ≤ 'z' then Char.ofNat (c.toNat - 32) else c

/-- `strings.ToLower` on a byte list (ASCII range). -/
def lowerL (l : List Char) : List Char := l.map lowerC

/-- `strings.ToUpper` on a byte list (ASCII range). -/
def upperL (l : List Char) : List Char := l.map upperC

/-- `strings.ToLower` on strings. -/
def toLowerStr (s : String) : String := ⟨lowerL s.data⟩

/-- `strings.ToUpper` on strings. -/
def toUpperStr (s : String) : String := ⟨upperL s.data⟩

/-- `unicode.IsSpace` restricted to the ASCII range
(space, tab, newline, vertical tab, form feed, carriage return). -/
def isSpc (c : Char) : Bool :=
  decide (c = ' ' ∨ c = '\t' ∨ c = '\n' ∨ c = '\x0b' ∨ c = '\x0c' ∨ c = '\r')

/-- `strings.TrimSpace` on a byte list (ASCII white space). -/
def trimL (l : List Char) : List Char :=
  ((l.dropWhile (isSpc ·)).reverse.dropWhile (isSpc ·)).reverse

/-- `strings.TrimSpace` on strings. -/
def trimStr (s : String) : String := ⟨trimL s.data⟩

/-- `strings.HasPrefix l p`: `l` begins with `p`. -/
def startsWithL (l p : List Char) : Bool := decide (l.take p.length = p)

/-- `strings.HasSuffix l p`: `l` ends with `p`. -/
def endsWithL (l p : List Char) : Bool := startsWithL l.reverse p.reverse

/-- `strings.Cut l c`: `(before, after, found)` around the first occurrence of `c`. -/
def cutL : List Char → Char → List Char × List Char × Bool
  | [], _ => ([], [], false)
  | x :: xs, c =>
    if x = c then ([], xs, true)
    else
      let r := cutL xs c
      (x :: r.1, r.2.1, r.2.2)

/-- Index of the first occurrence of byte `c` in `l` (`bytealg.IndexByteString`). -/
def firstIdxOf (l : List Char) (c : Char) : Option Nat := l.findIdx? (· = c)

/-- Index of the last occurrence of byte `c` in `l` (`strings.LastIndexByte`). -/
def lastIdxOf (l : List Char) (c : Char) : Option Nat :=
  match l.reverse.findIdx? (· = c) with
  | none => none
  | some j => some (l.length - 1 - j)

/-- `strings.Split` with separator `"."` (as used by `isBlocked`). -/
def splitDot : List Char → List (List Char)
  | [] => [[]]
  | c :: cs =>
    if c = '.' then [] :: splitDot cs
    else
      match splitDot cs with
      | [] => [[c]]
      | l :: ls => (c :: l) :: ls

/-- `strings.Join` with separator `"."` (as used by `isBlocked`). -/
def joinDot : List (List Char) → List Char
  | [] => []
  | [x] => x
  | x :: xs => x ++ '.' :: joinDot xs

/-- `net.SplitHostPort`.  Returns `none` exactly when the Go function returns
an error (missing port, too many colons, bracket errors). -/
def splitHostPort (hostport : List Char) : Option (List Char × List Char) :=
  match lastIdxOf hostport ':' with
  | none => none
  | some i =>
    if startsWithL hostport ['['] then
      match firstIdxOf hostport ']' with
      | none => none
      | some e =>
        if e + 1 = hostport.length then none
        else if e + 1 = i then
          if (hostport.drop 1).contains '[' then none
          else if (hostport.drop (e + 1)).contains ']' then none
          else some ((hostport.drop 1).take (e - 1), hostport.drop (i + 1))
        else none
    else
      if (hostport.take i).contains ':' then none
      else if hostport.contains '[' then none
      else if hostport.contains ']' then none
      else some (hostport.take i, hostport.drop (i + 1))

/-- `parseHostPort` from handler.go: split `host:port`, using `defaultPort`
when `net.SplitHostPort` reports an error. -/
def parseHostPort (addr defaultPort : String) : String × String :=
  match splitHostPort addr.data with
  | none => (addr, defaultPort)
  | some (h, p) => (⟨h⟩, ⟨p⟩)

/-- The host normalisation at the top of `isBlocked` in handler.go:
lower-case, then strip a `:port` suffix when `net.SplitHostPort` succeeds. -/
def normalizeHost (host : String) : String :=
  let h0 := lowerL host.data
  match splitHostPort h0 with
  | some (h, _) => ⟨h⟩
  | none => ⟨h0⟩

/-- `isBlocked` from handler.go.  The Go blocklist `map[string]bool` is
modelled by its lookup function (a missing key reads as `false`).  The Go
loop `for i := 1; i < len(parts); i++` over parent domains is modelled as a
search over all indices of `parts` filtered by `1 ≤ i`. -/
def isBlocked (host : String) (blocklist : String → Bool) : Bool :=
  let h := normalizeHost host
  if h = "" then false
  else if blocklist h then true
  else
    let parts := splitDot h.data
    (List.range parts.length).any fun i =>
      decide (1 ≤ i) && blocklist ⟨joinDot (parts.drop i)⟩

theorem splitDot_ne_nil (l : List Char) : splitDot l ≠ [] := by
  match l with
  | [] => simp [splitDot]
  | c :: cs =>
    simp only [splitDot]
    split
    · simp
    · split
      · simp
      · simp

theorem splitDot_append (a b : List Char) :
    splitDot (a ++ '.' :: b) = splitDot a ++ splitDot b := by
  induction a with
  | nil => simp [splitDot]
  | cons c cs ih =>
    by_cases hc : c = '.'
    · subst hc
      simp [splitDot, ih]
    · simp only [List.cons_append, splitDot, if_neg hc]
      rcases h : splitDot cs with _ | ⟨l, ls⟩
      · exact absurd h (splitDot_ne_nil cs)
      · simp [ih, h]

theorem joinDot_cons (x : List Char) (xs : List (List Char)) (h : xs ≠ []) :
    joinDot (x :: xs) = x ++ '.' :: joinDot xs := by
  match xs with
  | [] => exact absurd rfl h
  | y :: ys => rfl

theorem joinDot_splitDot (l : List Char) : joinDot (splitDot l) = l := by
  induction l with
  | nil => rfl
  | cons c cs ih =>
    by_cases hc : c = '.'
    · subst hc
      rw [show splitDot ('.' :: cs) = [] :: splitDot cs from by simp [splitDot],
        joinDot_cons _ _ (splitDot_ne_nil cs), ih]
      rfl
    · rcases h : splitDot cs with _ | ⟨l1, ls⟩
      · exact absurd h (splitDot_ne_nil cs)
      · have hs : splitDot (c :: cs) = (c :: l1) :: ls := by
          simp [splitDot, if_neg hc, h]
        rcases ls with _ | ⟨m, ms⟩
        · have h2 := ih
          rw [h] at h2
          have h3 : l1 = cs := h2
          rw [hs]
          show c :: l1 = c :: cs
          exact congrArg (c :: ·) h3
        · have h2 := ih
          rw [h, joinDot_cons _ _ (by simp)] at h2
          rw [hs, joinDot_cons _ _ (by simp), List.cons_append, h2]

theorem joinDot_append (a b : List (List Char)) (ha : a ≠ []) (hb : b ≠ []) :
    joinDot (a ++ b) = joinDot a ++ '.' :: joinDot b := by
  induction a with
  | nil => exact absurd rfl ha
  | cons x xs ih =>
    rcases xs with _ | ⟨y, ys⟩
    · simpa using joinDot_cons x b hb
    · rw [List.cons_append, joinDot_cons x ((y :: ys) ++ b) (by simp),
        ih (by simp), joinDot_cons x (y :: ys) (by simp)]
      simp

/-- The parent-domain loop of `isBlocked` hits `d` for some index iff the
normalised host ends with `"." ++ d`. -/
theorem suffix_join_splitDot (l d : List Char) :
    (∃ i, 1 ≤ i ∧ i < (splitDot l).length ∧ joinDot ((splitDot l).drop i) = d)
      ↔ ('.' :: d) <:+ l := by
  constructor
  · rintro ⟨i, h1, h2, h3⟩
    refine ⟨joinDot ((splitDot l).take i), ?_⟩
    have htake : (splitDot l).take i ≠ [] := by
      intro hnil
      have hlen := congrArg List.length hnil
      rw [List.length_take] at hlen
      simp only [List.length_nil] at hlen
      omega
    have hdrop : (splitDot l).drop i ≠ [] := by
      intro hnil
      have hlen := congrArg List.length hnil
      rw [List.length_drop] at hlen
      simp only [List.length_nil] at hlen
      omega
    have := joinDot_append ((splitDot l).take i) ((splitDot l).drop i) htake hdrop
    rw [List.take_append_drop, joinDot_splitDot] at this
    rw [← h3, ← this]
  · rintro ⟨pre, hpre⟩
    refine ⟨(splitDot pre).length, ?_, ?_, ?_⟩
    · have := splitDot_ne_nil pre
      have : 0 < (splitDot pre).length := List.length_pos.mpr this
      omega
    · rw [← hpre, splitDot_append, List.length_append]
      have := splitDot_ne_nil d
      have : 0 < (splitDot d).length := List.length_pos.mpr this
      omega
    · rw [← hpre, splitDot_append, List.drop_left, joinDot_splitDot]

/-- `isBlocked` written as one boolean expression (exact-match test first,
then the parent-domain loop), for use in the proofs below. -/
theorem isBlocked_eq (h : String) (bl : String → Bool) :
    isBlocked h bl =
      if normalizeHost h = "" then false
      else
        bl (normalizeHost h) ||
          ((List.range (splitDot (normalizeHost h).data).length).any fun i =>
            decide (1 ≤ i) && bl ⟨joinDot ((splitDot (normalizeHost h).data).drop i)⟩) := by
  simp only [isBlocked]
  by_cases h0 : normalizeHost h = ""
  · simp [h0]
  · rw [if_neg h0, if_neg h0]
    cases hb : bl (normalizeHost h) <;> simp [hb]

/-- C1: with a single-entry blocklist `{d}` for a non-empty lower-case domain
`d`, `isBlocked h {d}` holds iff the lower-cased, port-stripped host equals
`d` or ends with `"." ++ d`; in particular an entry `example.com` blocks
`example.com`, `www.example.com` and `a.b.example.com`, but not
`notexample.com`. -/
theorem C1_blocklist_suffix_match :
    (∀ h d : String, d ≠ "" →
      (isBlocked h (fun s => s == d) = true ↔
        normalizeHost h = d ∨ ('.' :: d.data) <:+ (normalizeHost h).data)) ∧
    isBlocked "example.com" (fun s => s == "example.com") = true ∧
    isBlocked "www.example.com" (fun s => s == "example.com") = true ∧
    isBlocked "a.b.example.com" (fun s => s == "example.com") = true ∧
    isBlocked "notexample.com" (fun s => s == "example.com") = false := by
  refine ⟨?_, by decide, by decide, by decide, by decide⟩
  intro h d hd
  rw [isBlocked_eq]
  by_cases h0 : normalizeHost h = ""
  · rw [if_pos h0]
    constructor
    · intro hfalse
      exact absurd hfalse (by simp)
    · rintro (hL | hR)
      · exact absurd (h0 ▸ hL) (Ne.symm hd)
      · rw [h0] at hR
        have : ('.' :: d.data) = [] := List.suffix_nil.mp hR
        simp at this
  · rw [if_neg h0]
    rw [Bool.or_eq_true, List.any_eq_true]
    constructor
    · rintro (hexact | ⟨i, hi, hcond⟩)
      · exact Or.inl (by simpa using hexact)
      · rw [Bool.and_eq_true, decide_eq_true_iff] at hcond
        refine Or.inr ((suffix_join_splitDot (normalizeHost h).data d.data).mp ?_)
        refine ⟨i, hcond.1, List.mem_range.mp hi, ?_⟩
        have := hcond.2
        rw [beq_iff_eq] at this
        exact congrArg String.data this
    · rintro (hL | hR)
      · exact Or.inl (by simpa using hL)
      · rcases (suffix_join_splitDot (normalizeHost h).data d.data).mpr hR with
          ⟨i, h1, h2, h3⟩
        refine Or.inr ⟨i, List.mem_range.mpr h2, ?_⟩
        rw [Bool.and_eq_true, decide_eq_true_iff]
        refine ⟨h1, ?_⟩
        rw [beq_iff_eq]
        apply String.ext
        exact h3

/-- Witness for C1 at the concrete host `www.example.com:8080` and domain
`example.com`. -/
theorem C1_witness :
    ("example.com" : String) ≠ "" ∧
      (isBlocked "www.example.com:8080" (fun s => s == "example.com") = true ↔
        normalizeHost "www.example.com:8080" = "example.com" ∨
          ('.' :: ("example.com" : String).data) <:+
            (normalizeHost "www.example.com:8080").data) :=
  ⟨by decide, C1_blocklist_suffix_match.1 "www.example.com:8080" "example.com" (by decide)⟩

/-- C6: a host whose normalised form (lower-cased, port-stripped) is empty is
never blocked, whatever the blocklist contains — including a blocklist whose
sole entry is the empty string. -/
theorem C6_empty_host_not_blocked (host : String) (blocklist : String → Bool)
    (h : normalizeHost host = "") : isBlocked host blocklist = false := by
  simp [isBlocked, h]

/-- Witness for C6: the empty host against a blocklist containing the empty
string as an entry. -/
theorem C6_witness :
    normalizeHost "" = "" ∧ isBlocked "" (fun s => s == "") = false :=
  ⟨rfl, C6_empty_host_not_blocked "" (fun s => s == "") rfl⟩

/-! ### The `net/url` routines used by `extractHostFromURI` and `cleanRequestURI`

`url.Parse` is embedded for the inputs on which the handler invokes it:
strings beginning with `http://` or `https://` (both call sites guard on this
very test).  The embedding follows `net/url`'s `parse`, `parseAuthority`,
`parseHost`, `unescape`, `shouldEscape`, `validOptionalPort`, `validUserinfo`
and `splitHostPort` byte for byte. -/

/-- The percent-escape modes of `net/url.unescape` that the handler can reach. -/
inductive EscMode
  | host
  | zone
  | path
  | fragment
  | userPassword
deriving DecidableEq

/-- `ishex` from `net/url`. -/
def isHexDigit (c : Char) : Bool :=
  decide (('0' ≤ c ∧ c ≤ '9') ∨ ('a' ≤ c ∧ c ≤ 'f') ∨ ('A' ≤ c ∧ c ≤ 'F'))

/-- `unhex` from `net/url`. -/
def hexVal (c : Char) : Nat :=
  if '0' ≤ c ∧ c ≤ '9' then c.toNat - 48
  else if 'a' ≤ c ∧ c ≤ 'f' then c.toNat - 97 + 10
  else if 'A' ≤ c ∧ c ≤ 'F' then c.toNat - 65 + 10
  else 0

/-- `shouldEscape` from `net/url` for the `encodeHost`/`encodeZone` modes
(they agree), on a byte value: everything escapes except alphanumerics,
the sub-delims plus `:[]<>"`, and the unreserved marks `-_.~`. -/
def shouldEscapeHostByte (v : Nat) : Bool :=
  !(decide ((48 ≤ v ∧ v ≤ 57) ∨ (65 ≤ v ∧ v ≤ 90) ∨ (97 ≤ v ∧ v ≤ 122)) ||
    [33, 36, 38, 39, 40, 41, 42, 43, 44, 59, 61, 58, 91, 93, 60, 62, 34,
      45, 95, 46, 126].contains v)

/-- `unescape` from `net/url` (scan and decode merged; the Go original scans
first and decodes second, returning the first error either way). -/
def unescapeL : List Char → EscMode → Option (List Char)
  | [], _ => some []
  | '%' :: h1 :: h2 :: rest, m =>
    if isHexDigit h1 && isHexDigit h2 then
      let v := hexVal h1 * 16 + hexVal h2
      if m = EscMode.host ∧ hexVal h1 < 8 ∧ ¬(h1 = '2' ∧ h2 = '5') then none
      else if m = EscMode.zone ∧ ¬(h1 = '2' ∧ h2 = '5') ∧ v ≠ 32 ∧
          shouldEscapeHostByte v then none
      else
        match unescapeL rest m with
        | none => none
        | some t => some (Char.ofNat v :: t)
    else none
  | ['%'], _ => none
  | ['%', _], _ => none
  | c :: rest, m =>
    if (m = EscMode.host ∨ m = EscMode.zone) ∧ c.toNat < 128 ∧
        shouldEscapeHostByte c.toNat then none
    else
      match unescapeL rest m with
      | none => none
      | some t => some (c :: t)

/-- `validOptionalPort` from `net/url`: empty, or `:` followed by digits only. -/
def validOptionalPort (port : List Char) : Bool :=
  match port with
  | [] => true
  | c :: rest => c = ':' && rest.all fun b => decide ('0' ≤ b ∧ b ≤ '9')

/-- `strings.Index l "%25"`: position of the leftmost occurrence. -/
def idxOfPct25 (l : List Char) : Option Nat :=
  (List.range (l.length + 1)).find? fun i => startsWithL (l.drop i) ['%', '2', '5']

/-- `validUserinfo` from `net/url`. -/
def validUserinfo (l : List Char) : Bool :=
  l.all fun c =>
    decide (('A' ≤ c ∧ c ≤ 'Z') ∨ ('a' ≤ c ∧ c ≤ 'z') ∨ ('0' ≤ c ∧ c ≤ '9')) ||
      ['-', '.', '_', ':', '~', '!', '$', '&', Char.ofNat 39, '(', ')', '*',
        '+', ',', ';', '=', '%', '@'].contains c

/-- `parseHost` from `net/url` (bracketed IPv6 literals with optional
`%25`-introduced zone, or a plain host with an optional valid `:port`). -/
def parseHost (host : List Char) : Option (List Char) :=
  if startsWithL host ['['] then
    match lastIdxOf host ']' with
    | none => none
    | some i =>
      if ¬ validOptionalPort (host.drop (i + 1)) then none
      else
        match idxOfPct25 (host.take i) with
        | some z =>
          match unescapeL (host.take z) EscMode.host,
              unescapeL ((host.take i).drop z) EscMode.zone,
              unescapeL (host.drop i) EscMode.host with
          | some a, some b, some c => some (a ++ b ++ c)
          | _, _, _ => none
        | none => unescapeL host EscMode.host
  else
    match lastIdxOf host ':' with
    | some i =>
      if validOptionalPort (host.drop i) then unescapeL host EscMode.host else none
    | none => unescapeL host EscMode.host

/-- `parseAuthority` from `net/url`, reduced to the `Host` field (the handler
never reads `url.User`, but `url.Parse` fails — and the handler then falls
back to the Host header — whenever the userinfo is rejected, either by
`validUserinfo` or by `unescape(..., encodeUserPassword)` on the username
and, after the first `:`, the password). -/
def parseAuthority (authority : List Char) : Option (List Char) :=
  match lastIdxOf authority '@' with
  | none => parseHost authority
  | some i =>
    match parseHost (authority.drop (i + 1)) with
    | none => none
    | some h =>
      let userinfo := authority.take i
      if ¬ validUserinfo userinfo then none
      else if ¬ userinfo.contains ':' then
        match unescapeL userinfo EscMode.userPassword with
        | none => none
        | some _ => some h
      else
        let c2 := cutL userinfo ':'
        match unescapeL c2.1 EscMode.userPassword,
            unescapeL c2.2.1 EscMode.userPassword with
        | some _, some _ => some h
        | _, _ => none

/-- The fields of `url.URL` that the handler reads. -/
structure URLRec where
  scheme : List Char
  host : List Char
  path : List Char
  rawQuery : List Char
deriving DecidableEq, Repr

/-- `getScheme` from `net/url`, specialised to the two schemes the handler's
guard lets through; returns the scheme and the remainder after the `:`. -/
def schemeSplit (u : List Char) : Option (List Char × List Char) :=
  if startsWithL u ("http://".data) then some ("http".data, u.drop 5)
  else if startsWithL u ("https://".data) then some ("https".data, u.drop 6)
  else none

/-- `url.Parse` for strings beginning with `http://` or `https://`: cut the
fragment at the first `#`, reject control bytes, split off the scheme, cut the
query at the first `?` (with the trailing-`?` `ForceQuery` special case),
parse the authority up to the first `/`, percent-decode the path, and
validate the fragment. -/
def uriParse (s : List Char) : Option URLRec :=
  let cut1 := cutL s '#'
  let u := cut1.1
  let frag := cut1.2.1
  if u.any fun c => decide (c.toNat < 32 ∨ c.toNat = 127) then none
  else
    match schemeSplit u with
    | none => none
    | some (scheme, rest0) =>
      let qcut :=
        if endsWithL rest0 ['?'] && !(rest0.dropLast.contains '?') then
          (rest0.dropLast, ([] : List Char))
        else
          let c2 := cutL rest0 '?'
          (c2.1, c2.2.1)
      let rest1 := qcut.1
      let afterSS := rest1.drop 2
      let acut :=
        match firstIdxOf afterSS '/' with
        | some i => (afterSS.take i, afterSS.drop i)
        | none => (afterSS, ([] : List Char))
      match parseAuthority acut.1 with
      | none => none
      | some host =>
        match unescapeL acut.2 EscMode.path with
        | none => none
        | some p =>
          if frag ≠ [] ∧ unescapeL frag EscMode.fragment = none then none
          else some ⟨scheme, host, p, qcut.2⟩

/-- `net/url`'s internal `splitHostPort`, the body of `URL.Hostname` and
`URL.Port`: strip a valid numeric `:port`, then strip one pair of square
brackets. -/
def urlSplitHostPort (hostPort : List Char) : List Char × List Char :=
  let hp :=
    match lastIdxOf hostPort ':' with
    | some colon =>
      if validOptionalPort (hostPort.drop colon) then
        (hostPort.take colon, hostPort.drop (colon + 1))
      else (hostPort, ([] : List Char))
    | none => (hostPort, ([] : List Char))
  let host :=
    if startsWithL hp.1 ['['] && endsWithL hp.1 [']'] then (hp.1.drop 1).dropLast
    else hp.1
  (host, hp.2)

/-- `extractHostFromURI` from handler.go. -/
def extractHostFromURI (rawURI hostHeader : String) : String × String :=
  let viaURL : Option (String × String) :=
    if startsWithL rawURI.data ("http://".data) ||
        startsWithL rawURI.data ("https://".data) then
      match uriParse rawURI.data with
      | some u =>
        let hp := urlSplitHostPort u.host
        let port :=
          if hp.2 = [] then
            (if u.scheme = "https".data then "443".data else "80".data)
          else hp.2
        some (⟨hp.1⟩, ⟨port⟩)
      | none => none
    else none
  match viaURL with
  | some r => r
  | none =>
    if hostHeader ≠ "" then parseHostPort (trimStr hostHeader) "80"
    else ("", "80")

/-- `cleanRequestURI` from handler.go. -/
def cleanRequestURI (rawURI : String) : String :=
  let viaURL : Option String :=
    if startsWithL rawURI.data ("http://".data) ||
        startsWithL rawURI.data ("https://".data) then
      match uriParse rawURI.data with
      | some u =>
        let path := if u.path = [] then "/".data else u.path
        let path := if u.rawQuery ≠ [] then path ++ '?' :: u.rawQuery else path
        some ⟨path⟩
      | none => none
    else none
  match viaURL with
  | some r => r
  | none => rawURI

/-- The host/port resolution step of `HandleConnection` (lines 58–64 of
handler.go): `CONNECT` goes through `parseHostPort` with default port `443`,
every other method through `extractHostFromURI`. -/
def resolve (method targetURI hostHeaderValue : String) : String × String :=
  if method = "CONNECT" then parseHostPort targetURI "443"
  else extractHostFromURI targetURI hostHeaderValue

/-! ### The connection pipeline of `HandleConnection`

The client stream is the list of bytes the client will send before closing;
`bufio.Reader.ReadString('\n')` is `takeLine`.  Network effects whose
outcomes the environment decides (the target dial, the writes to the target
and the tunnel-established write) are supplied by a `NetOracle`.  A `Trace`
collects everything observable the handler does up to the point where it
hands both streams to the bidirectional relay. -/

/-- `bufio.Reader.ReadString('\n')` on a stream with remaining bytes `l`:
`some (line, rest)` when a newline is found (the line includes it); `none`
when the stream ends first (Go then returns the partial data with a non-nil
error, and both call sites in handler.go discard that data). -/
def takeLine : List Char → Option (List Char × List Char)
  | [] => none
  | c :: cs =>
    if c = '\n' then some (['\n'], cs)
    else
      match takeLine cs with
      | none => none
      | some (l, r) => some (c :: l, r)

theorem takeLine_length {input line rest : List Char}
    (h : takeLine input = some (line, rest)) : rest.length < input.length := by
  induction input generalizing line rest with
  | nil => simp [takeLine] at h
  | cons c cs ih =>
    simp only [takeLine] at h
    split at h
    · cases h
      simp
    · rcases h2 : takeLine cs with _ | ⟨l, r⟩ <;> rw [h2] at h
      · cases h
      · cases h
        have := ih h2
        simp only [List.length_cons]
        omega

theorem takeLine_append (l rest : List Char) (hl : '\n' ∉ l) :
    takeLine (l ++ '\n' :: rest) = some (l ++ ['\n'], rest) := by
  induction l with
  | nil => simp [takeLine]
  | cons c cs ih =>
    have hc : c ≠ '\n' := fun e => hl (e ▸ List.mem_cons_self c cs)
    simp [takeLine, hc, ih fun m => hl (List.mem_cons_of_mem c m)]

/-- `strings.Fields`: the maximal runs of non-white-space bytes. -/
def fieldsGo (acc : List Char) : List Char → List (List Char)
  | [] => if acc = [] then [] else [acc.reverse]
  | c :: cs =>
    if isSpc c then
      if acc = [] then fieldsGo [] cs else acc.reverse :: fieldsGo [] cs
    else fieldsGo (c :: acc) cs

/-- `strings.Fields`. -/
def fields (l : List Char) : List (List Char) := fieldsGo [] l

/-! The header-reading loop of `HandleConnection` (handler.go lines 42–52):
read lines until a read error, `"\r\n"` or `"\n"`; keep every other line
verbatim in order; a line whose lower-cased form begins with `host:`
overwrites the captured Host value with `strings.TrimSpace(line[5:])`.
Returns the headers, the captured Host value, and the unread remainder of
the stream.
The loop consumes at least one byte per iteration, so running it with
`input.length` as structural fuel computes the whole loop
(`readHeadersFuel_congr` below shows any fuel of at least `input.length`
gives the same result); on empty input both the loop and the fuel-0 case
return immediately with nothing read. -/

/-- The Host-capture update of handler.go lines 48–51 for one header line:
a line whose lower-cased form begins with `host:` replaces the captured
value with `strings.TrimSpace(line[5:])`; any other line keeps it. -/
def hostCapture (hh : String) (line : List Char) : String :=
  if startsWithL (lowerL line) ("host:".data) then ⟨trimL (line.drop 5)⟩ else hh

/-- The body of the header-reading loop, with `input.length` as structural
fuel (see the comment above). -/
def readHeadersFuel : Nat → List Char → List String → String →
    List String × String × List Char
  | 0, _, acc, hh => (acc, hh, [])
  | fuel + 1, input, acc, hh =>
    match takeLine input with
    | none => (acc, hh, [])
    | some (line, rest) =>
      if line = ['\r', '\n'] ∨ line = ['\n'] then (acc, hh, rest)
      else readHeadersFuel fuel rest (acc ++ [⟨line⟩]) (hostCapture hh line)

/-- The header-reading loop, started with no headers and an empty Host value. -/
def readHeaders (input : List Char) : List String × String × List Char :=
  readHeadersFuel input.length input [] ""

theorem readHeadersFuel_congr (f1 : Nat) :
    ∀ (f2 : Nat) (input : List Char) (acc : List String) (hh : String),
      input.length ≤ f1 → input.length ≤ f2 →
      readHeadersFuel f1 input acc hh = readHeadersFuel f2 input acc hh := by
  induction f1 with
  | zero =>
    intro f2 input acc hh h1 h2
    have : input = [] := List.eq_nil_of_length_eq_zero (Nat.le_zero.mp h1)
    subst this
    cases f2 <;> simp [readHeadersFuel, takeLine]
  | succ f ih =>
    intro f2 input acc hh h1 h2
    cases f2 with
    | zero =>
      have : input = [] := List.eq_nil_of_length_eq_zero (Nat.le_zero.mp h2)
      subst this
      simp [readHeadersFuel, takeLine]
    | succ g =>
      rcases ht : takeLine input with _ | ⟨line, rest⟩
      · simp only [readHeadersFuel, ht]
      · have hlen := takeLine_length ht
        simp only [readHeadersFuel, ht]
        split
        · rfl
        · exact ih g rest _ _ (by omega) (by omega)

/-- `net.JoinHostPort`. -/
def joinHostPort (host port : String) : String :=
  if host.data.contains ':' then "[" ++ host ++ "]:" ++ port
  else host ++ ":" ++ port

/-- The byte string written to the client by `sendError(conn, code, text)`. -/
def sendErrorResponse (code : Nat) (text : String) : String :=
  "HTTP/1.1 " ++ toString code ++ " " ++ text ++
    "\r\nContent-Type: text/plain\r\nConnection: close\r\n\r\n" ++
    toString code ++ " " ++ text ++ "\n"

/-- One `logConnection` record, minus the wall-clock timestamp (which the
environment supplies, not the handler logic). -/
structure LogRecord where
  clientAddr : String
  host : String
  method : String
  status : String
  details : String
deriving DecidableEq, Repr

/-- Outcomes of the handler's network side effects, decided by the
environment: whether the target dial succeeds (and the error text when it
fails), whether the `200 Connection Established` write succeeds, whether the
forwarded request-line write succeeds, and the outcomes of the header writes
(handler.go discards those error results). -/
structure NetOracle where
  dialOk : Bool
  dialErrMsg : String
  tunnelRespOk : Bool
  reqWriteOk : Bool
  headerWriteOk : List Bool
deriving DecidableEq, Repr

/-- Everything observable that one `HandleConnection` call does before (and
including) handing both streams to the relay: responses written to the
client, log records emitted, target addresses dialed, byte strings written
to the target, and whether the bidirectional relay was reached. -/
structure Trace where
  responses : List String
  logs : List LogRecord
  dials : List String
  targetWrites : List String
  relayed : Bool
deriving DecidableEq, Repr

/-- `handleHTTPS` from handler.go (everything up to the relay). -/
def handleHTTPS (clientAddr targetHost targetPort : String) (o : NetOracle) :
    Trace :=
  let addr := joinHostPort targetHost targetPort
  if o.dialOk = false then
    { responses := [sendErrorResponse 502 "Bad Gateway"],
      logs := [⟨clientAddr, targetHost, "CONNECT", "ERROR",
        "Failed to connect: " ++ o.dialErrMsg⟩],
      dials := [addr], targetWrites := [], relayed := false }
  else if o.tunnelRespOk = false then
    { responses := ["HTTP/1.1 200 Connection Established\r\n\r\n"],
      logs := [⟨clientAddr, targetHost, "CONNECT", "ERROR",
        "Failed to send response"⟩],
      dials := [addr], targetWrites := [], relayed := false }
  else
    { responses := ["HTTP/1.1 200 Connection Established\r\n\r\n"],
      logs := [⟨clientAddr, targetHost, "CONNECT", "OK", "Tunnel established"⟩],
      dials := [addr], targetWrites := [], relayed := true }

/-- `handleHTTP` from handler.go (everything up to the relay).  The header
writes and the terminating `"\r\n"` write appear in `targetWrites`
unconditionally: handler.go discards their error results, so the oracle's
`headerWriteOk` outcomes never influence anything. -/
def handleHTTP (clientAddr method rawURI httpVersion : String)
    (headers : List String) (targetHost targetPort : String) (o : NetOracle) :
    Trace :=
  let addr := joinHostPort targetHost targetPort
  if o.dialOk = false then
    { responses := [sendErrorResponse 502 "Bad Gateway"],
      logs := [⟨clientAddr, targetHost, method, "ERROR",
        "Failed to connect: " ++ o.dialErrMsg⟩],
      dials := [addr], targetWrites := [], relayed := false }
  else
    let cleanedURI := cleanRequestURI rawURI
    let requestLine := method ++ " " ++ cleanedURI ++ " " ++ httpVersion ++ "\r\n"
    if o.reqWriteOk = false then
      { responses := [sendErrorResponse 502 "Bad Gateway"],
        logs := [⟨clientAddr, targetHost, method, "ERROR",
          "Failed to forward request"⟩],
        dials := [addr], targetWrites := [requestLine], relayed := false }
    else
      { responses := [],
        logs := [⟨clientAddr, targetHost, method, "OK", cleanedURI⟩],
        dials := [addr],
        targetWrites := requestLine :: headers ++ ["\r\n"], relayed := true }

/-- `strings.ToUpper(parts[0])` of the split request line. -/
def requestMethod (line : List Char) : String := toUpperStr ⟨(fields line).getD 0 []⟩

/-- `parts[1]` of the split request line (the raw target URI). -/
def requestURI (line : List Char) : String := ⟨(fields line).getD 1 []⟩

/-- `parts[2]` of the split request line (the protocol version token). -/
def requestVersion (line : List Char) : String := ⟨(fields line).getD 2 []⟩

/-- `HandleConnection` from handler.go, as a function from the client's byte
stream, the blocklist and the environment's network outcomes to the
observable trace. -/
def HandleConnection (clientAddr : String) (input : List Char)
    (blocklist : String → Bool) (o : NetOracle) : Trace :=
  match takeLine input with
  | none =>
    { responses := [],
      logs := [⟨clientAddr, "", "", "ERROR", "Failed to read request"⟩],
      dials := [], targetWrites := [], relayed := false }
  | some (requestLine, rest) =>
    if (fields requestLine).length < 3 then
      { responses := [sendErrorResponse 400 "Bad Request"],
        logs := [⟨clientAddr, "", "", "ERROR", "Invalid request line"⟩],
        dials := [], targetWrites := [], relayed := false }
    else
      let method := requestMethod requestLine
      let rawURI := requestURI requestLine
      let httpVersion := requestVersion requestLine
      let hd := readHeaders rest
      let tp := resolve method rawURI hd.2.1
      if isBlocked tp.1 blocklist then
        { responses := [sendErrorResponse 403 "Forbidden"],
          logs := [⟨clientAddr, tp.1, method, "BLOCKED", "Domain is blocked"⟩],
          dials := [], targetWrites := [], relayed := false }
      else if method = "CONNECT" then
        handleHTTPS clientAddr tp.1 tp.2 o
      else
        handleHTTP clientAddr method rawURI httpVersion hd.1 tp.1 tp.2 o

example : cleanRequestURI "http://a.com/x?y=1" = "/x?y=1" := by decide
example : cleanRequestURI "http://a.com" = "/" := by decide
example : cleanRequestURI "/already/relative" = "/already/relative" := by decide
example : resolve "CONNECT" "site.com:443" "" = ("site.com", "443") := by decide
example : resolve "GET" "http://site.com/p" "" = ("site.com", "80") := by decide
example : resolve "GET" "/p" "site.com:8080" = ("site.com", "8080") := by decide
example : resolve "GET" "https://site.com/p" "" = ("site.com", "443") := by decide
example : uriParse ("http://u:pw@a.com:81/x/y?q=2#frg").data =
    some ⟨"http".data, "a.com:81".data, "/x/y".data, "q=2".data⟩ := by decide

/-! ### Claims about the connection pipeline -/

/-- C2 as stated is false on the stream-closed case: on an empty client
stream (no complete request line), `HandleConnection` writes no response at
all — in particular no 400 — and only logs one ERROR record. -/
theorem C2_counterexample :
    HandleConnection "client" [] (fun _ => false) ⟨true, "", true, true, []⟩ =
      { responses := [],
        logs := [⟨"client", "", "", "ERROR", "Failed to read request"⟩],
        dials := [], targetWrites := [], relayed := false } ∧
    (HandleConnection "client" [] (fun _ => false)
        ⟨true, "", true, true, []⟩).responses ≠
      [sendErrorResponse 400 "Bad Request"] :=
  ⟨by decide, by decide⟩

/-- C2 (amended): a connection whose request line has fewer than three
white-space-separated fields gets exactly one 400 response and exactly one
ERROR log record and no dial; a connection whose stream closes before a
complete request line is read gets no response at all, exactly one ERROR
log record, and no dial. -/
theorem C2_malformed_request (clientAddr : String) (input : List Char)
    (blocklist : String → Bool) (o : NetOracle) :
    (∀ line rest, takeLine input = some (line, rest) →
      (fields line).length < 3 →
      HandleConnection clientAddr input blocklist o =
        { responses := [sendErrorResponse 400 "Bad Request"],
          logs := [⟨clientAddr, "", "", "ERROR", "Invalid request line"⟩],
          dials := [], targetWrites := [], relayed := false }) ∧
    (takeLine input = none →
      HandleConnection clientAddr input blocklist o =
        { responses := [],
          logs := [⟨clientAddr, "", "", "ERROR", "Failed to read request"⟩],
          dials := [], targetWrites := [], relayed := false }) := by
  constructor
  · intro line rest h hlt
    simp [HandleConnection, h, hlt]
  · intro h
    simp [HandleConnection, h]

/-- Witness for C2 at the two-field request line `GET /`. -/
theorem C2_witness :
    takeLine ("GET /\r\n").data = some (("GET /\r\n").data, []) ∧
    (fields ("GET /\r\n").data).length < 3 ∧
    HandleConnection "client2" ("GET /\r\n").data (fun _ => false)
        ⟨true, "", true, true, []⟩ =
      { responses := [sendErrorResponse 400 "Bad Request"],
        logs := [⟨"client2", "", "", "ERROR", "Invalid request line"⟩],
        dials := [], targetWrites := [], relayed := false } :=
  ⟨by decide, by decide,
    (C2_malformed_request "client2" ("GET /\r\n").data (fun _ => false)
        ⟨true, "", true, true, []⟩).1 ("GET /\r\n").data [] (by decide) (by decide)⟩

/-- C5: whenever the request parses and the resolved host is blocked, the
handler sends exactly one 403 response, writes exactly one BLOCKED log
record, dials no target and writes nothing to any target — the method
(CONNECT or any HTTP verb) plays no role. -/
theorem C5_blocked_no_dial (clientAddr : String) (input : List Char)
    (blocklist : String → Bool) (o : NetOracle) (line rest : List Char)
    (hline : takeLine input = some (line, rest))
    (hlen : ¬ (fields line).length < 3)
    (hblocked :
      isBlocked (resolve (requestMethod line) (requestURI line)
        (readHeaders rest).2.1).1 blocklist = true) :
    HandleConnection clientAddr input blocklist o =
      { responses := [sendErrorResponse 403 "Forbidden"],
        logs := [⟨clientAddr,
          (resolve (requestMethod line) (requestURI line)
            (readHeaders rest).2.1).1,
          requestMethod line, "BLOCKED", "Domain is blocked"⟩],
        dials := [], targetWrites := [], relayed := false } := by
  simp [HandleConnection, hline, hlen, hblocked]

/-- Witness for C5: `CONNECT blocked.example:443` with `blocked.example`
on the blocklist. -/
theorem C5_witness :
    HandleConnection "cl5" ("CONNECT blocked.example:443 HTTP/1.1\r\n\r\n").data
        (fun s => s == "blocked.example") ⟨true, "", true, true, []⟩ =
      { responses := [sendErrorResponse 403 "Forbidden"],
        logs := [⟨"cl5", "blocked.example", "CONNECT", "BLOCKED",
          "Domain is blocked"⟩],
        dials := [], targetWrites := [], relayed := false } := by
  have h := C5_blocked_no_dial "cl5"
      ("CONNECT blocked.example:443 HTTP/1.1\r\n\r\n").data
      (fun s => s == "blocked.example") ⟨true, "", true, true, []⟩
      ("CONNECT blocked.example:443 HTTP/1.1\r\n").data ("\r\n").data
      (by decide) (by decide) (by decide)
  rw [h]
  decide

/-- C4: `cleanRequestURI` maps every `http://`/`https://` input accepted by
`url.Parse` to the URL's path (`/` when the path is empty) followed by
`?query` when the raw query is non-empty, and returns every other input —
already-relative URIs and scheme-led inputs that `url.Parse` rejects
alike — unchanged. -/
theorem C4_cleanRequestURI :
    (∀ s : String, ∀ u,
      (startsWithL s.data ("http://".data) ||
        startsWithL s.data ("https://".data)) = true →
      uriParse s.data = some u →
      cleanRequestURI s =
        ⟨(if u.path = [] then "/".data else u.path) ++
          (if u.rawQuery ≠ [] then '?' :: u.rawQuery else [])⟩) ∧
    (∀ s : String,
      (startsWithL s.data ("http://".data) ||
        startsWithL s.data ("https://".data)) = false →
      cleanRequestURI s = s) ∧
    (∀ s : String, uriParse s.data = none → cleanRequestURI s = s) ∧
    cleanRequestURI "http://a.com/x?y=1" = "/x?y=1" ∧
    cleanRequestURI "http://a.com" = "/" ∧
    cleanRequestURI "/already/relative" = "/already/relative" ∧
    cleanRequestURI "http://a%zz@b.com/x" = "http://a%zz@b.com/x" := by
  refine ⟨?_, ?_, ?_, by decide, by decide, by decide, by decide⟩
  · intro s u hguard hu
    simp only [cleanRequestURI, hguard, hu, if_true]
    split
    · simp
    · simp
  · intro s hguard
    simp [cleanRequestURI, hguard]
  · intro s hu
    by_cases hg : (startsWithL s.data ("http://".data) ||
        startsWithL s.data ("https://".data)) = true
    · simp [cleanRequestURI, hu, hg]
    · simp [cleanRequestURI, hu, hg]

/-- Witness for C4 at `http://a.com/x?y=1`. -/
theorem C4_witness :
    (startsWithL ("http://a.com/x?y=1" : String).data ("http://".data) ||
      startsWithL ("http://a.com/x?y=1" : String).data ("https://".data)) = true ∧
    uriParse ("http://a.com/x?y=1" : String).data =
      some ⟨"http".data, "a.com".data, "/x".data, "y=1".data⟩ ∧
    cleanRequestURI "http://a.com/x?y=1" =
      ⟨(if ("/x".data : List Char) = [] then "/".data else "/x".data) ++
        (if ("y=1".data : List Char) ≠ [] then '?' :: ("y=1".data : List Char)
         else [])⟩ :=
  ⟨by decide, by decide,
    C4_cleanRequestURI.1 "http://a.com/x?y=1"
      ⟨"http".data, "a.com".data, "/x".data, "y=1".data⟩ (by decide) (by decide)⟩

/-- `HandleConnection` never reads the outcomes of the header writes: the Go
code calls `targetConn.Write` for each header line and for the terminator
without checking the returned error. -/
theorem HandleConnection_ignores_headerWriteOk (clientAddr : String)
    (input : List Char) (blocklist : String → Bool) (d : Bool) (m : String)
    (t r : Bool) (xs ys : List Bool) :
    HandleConnection clientAddr input blocklist ⟨d, m, t, r, xs⟩ =
      HandleConnection clientAddr input blocklist ⟨d, m, t, r, ys⟩ := rfl

/-- C10: in HTTP forwarding, a failed write of the rewritten request line
after a successful dial produces the same client-visible outcome as a dial
failure — exactly one 502 response and one ERROR log record, no relay —
while the outcomes of the header-line and blank-line writes are ignored
entirely and influence nothing. -/
theorem C10_forward_write_errors (clientAddr : String) (input : List Char)
    (blocklist : String → Bool) (o : NetOracle) (line rest : List Char)
    (hline : takeLine input = some (line, rest))
    (hlen : ¬ (fields line).length < 3)
    (hnb : isBlocked (resolve (requestMethod line) (requestURI line)
      (readHeaders rest).2.1).1 blocklist = false)
    (hm : ¬ requestMethod line = "CONNECT") :
    (o.dialOk = true → o.reqWriteOk = false →
      HandleConnection clientAddr input blocklist o =
        { responses := [sendErrorResponse 502 "Bad Gateway"],
          logs := [⟨clientAddr,
            (resolve (requestMethod line) (requestURI line)
              (readHeaders rest).2.1).1,
            requestMethod line, "ERROR", "Failed to forward request"⟩],
          dials := [joinHostPort
            (resolve (requestMethod line) (requestURI line)
              (readHeaders rest).2.1).1
            (resolve (requestMethod line) (requestURI line)
              (readHeaders rest).2.1).2],
          targetWrites := [requestMethod line ++ " " ++
            cleanRequestURI (requestURI line) ++ " " ++ requestVersion line ++
            "\r\n"],
          relayed := false }) ∧
    (o.dialOk = false →
      HandleConnection clientAddr input blocklist o =
        { responses := [sendErrorResponse 502 "Bad Gateway"],
          logs := [⟨clientAddr,
            (resolve (requestMethod line) (requestURI line)
              (readHeaders rest).2.1).1,
            requestMethod line, "ERROR", "Failed to connect: " ++ o.dialErrMsg⟩],
          dials := [joinHostPort
            (resolve (requestMethod line) (requestURI line)
              (readHeaders rest).2.1).1
            (resolve (requestMethod line) (requestURI line)
              (readHeaders rest).2.1).2],
          targetWrites := [], relayed := false }) ∧
    (∀ xs ys : List Bool,
      HandleConnection clientAddr input blocklist
          ⟨o.dialOk, o.dialErrMsg, o.tunnelRespOk, o.reqWriteOk, xs⟩ =
        HandleConnection clientAddr input blocklist
          ⟨o.dialOk, o.dialErrMsg, o.tunnelRespOk, o.reqWriteOk, ys⟩) := by
  refine ⟨?_, ?_, ?_⟩
  · intro hd hw
    simp [HandleConnection, hline, hlen, hnb, hm, handleHTTP, hd, hw]
  · intro hd
    simp [HandleConnection, hline, hlen, hnb, hm, handleHTTP, hd]
  · intro xs ys
    exact HandleConnection_ignores_headerWriteOk clientAddr input blocklist
      o.dialOk o.dialErrMsg o.tunnelRespOk o.reqWriteOk xs ys

/-- Witness for C10: request-line write failure after a successful dial on
`GET http://a.com HTTP/1.1`. -/
theorem C10_witness :
    HandleConnection "cl10" ("GET http://a.com HTTP/1.1\r\n\r\n").data
        (fun _ => false) ⟨true, "boom", true, false, []⟩ =
      { responses := [sendErrorResponse 502 "Bad Gateway"],
        logs := [⟨"cl10", "a.com", "GET", "ERROR", "Failed to forward request"⟩],
        dials := ["a.com:80"], targetWrites := ["GET / HTTP/1.1\r\n"],
        relayed := false } := by
  have h := (C10_forward_write_errors "cl10"
      ("GET http://a.com HTTP/1.1\r\n\r\n").data (fun _ => false)
      ⟨true, "boom", true, false, []⟩
      ("GET http://a.com HTTP/1.1\r\n").data ("\r\n").data
      (by decide) (by decide) (by decide) (by decide)).1 (by decide) (by decide)
  rw [h]
  decide

/-! ### Claim C3: the host/port resolution -/

theorem findIdx?_append_eq (a b : List Char) (c : Char) (h : c ∉ a) :
    (a ++ c :: b).findIdx? (· = c) = some a.length := by
  induction a with
  | nil => simp [List.findIdx?_cons]
  | cons x xs ih =>
    have hx : ¬ (x = c) := fun e => h (e ▸ List.mem_cons_self x xs)
    simp [List.findIdx?_cons, hx, ih fun m => h (List.mem_cons_of_mem x m)]

theorem lastIdxOf_append (h p : List Char) (c : Char) (_hh : c ∉ h)
    (hp : c ∉ p) : lastIdxOf (h ++ c :: p) c = some h.length := by
  unfold lastIdxOf
  have hrev : (h ++ c :: p).reverse = p.reverse ++ c :: h.reverse := by simp
  rw [hrev, findIdx?_append_eq _ _ _ (by simpa using hp)]
  show some ((h ++ c :: p).length - 1 - p.reverse.length) = some h.length
  simp only [List.length_append, List.length_cons, List.length_reverse]
  congr 1
  omega

theorem lastIdxOf_eq_none (l : List Char) (c : Char) (h : c ∉ l) :
    lastIdxOf l c = none := by
  unfold lastIdxOf
  have hnone : l.reverse.findIdx? (· = c) = none :=
    List.findIdx?_eq_none_iff.mpr fun x hx => by
      simp only [decide_eq_false_iff_not]
      intro e
      exact h (e ▸ List.mem_reverse.mp hx)
  rw [hnone]

theorem splitHostPort_none (l : List Char) (h : ':' ∉ l) :
    splitHostPort l = none := by
  unfold splitHostPort
  rw [lastIdxOf_eq_none l ':' h]

theorem splitHostPort_append (h p : List Char) (hch : ':' ∉ h) (hcp : ':' ∉ p)
    (hb1 : '[' ∉ h ++ ':' :: p) (hb2 : ']' ∉ h ++ ':' :: p) :
    splitHostPort (h ++ ':' :: p) = some (h, p) := by
  unfold splitHostPort
  rw [lastIdxOf_append h p ':' hch hcp]
  have hopen : startsWithL (h ++ ':' :: p) ['['] = false := by
    rcases h with _ | ⟨a, as⟩
    · simp [startsWithL]
    · have ha : a ≠ '[' := fun e => hb1 (by simp [e])
      simp [startsWithL, ha]
  have t1 : (h ++ ':' :: p).take h.length = h := List.take_left h (':' :: p)
  have t2 : (h ++ ':' :: p).drop (h.length + 1) = p := by
    have e : h ++ ':' :: p = (h ++ [':']) ++ p := by simp
    rw [e, List.drop_left' (by simp)]
  have c1 : h.contains ':' = false := by
    simp only [List.contains, List.elem_eq_mem, decide_eq_false_iff_not]
    exact hch
  have c2 : (h ++ ':' :: p).contains '[' = false := by
    simp only [List.contains, List.elem_eq_mem, decide_eq_false_iff_not]
    exact hb1
  have c3 : (h ++ ':' :: p).contains ']' = false := by
    simp only [List.contains, List.elem_eq_mem, decide_eq_false_iff_not]
    exact hb2
  simp [hopen, t1, t2, c1, c2, c3]
  refine ⟨hch, ⟨fun m => hb1 (List.mem_append_left _ m),
      fun m => hb1 (List.mem_append_right _ (List.mem_cons_of_mem _ m))⟩,
    fun m => hb2 (List.mem_append_left _ m),
    fun m => hb2 (List.mem_append_right _ (List.mem_cons_of_mem _ m))⟩

/-- `⟨s.data⟩` rebuilds `s`. -/
theorem String_mk_data (s : String) : (⟨s.data⟩ : String) = s := by
  cases s
  rfl

/-- C3: the resolution contract.  (a) For CONNECT, a well-formed `host:port`
target splits into host and port; (b) a colon-free CONNECT target keeps the
default port 443; (c) for other methods, an `http://`/`https://` target that
`url.Parse` accepts yields that URL's host and port, the port defaulting to
80 (http) and 443 (https); (d) when the target is not usable — no
`http://`/`https://` scheme, or `url.Parse` rejects it — a non-empty Host
header value is split with default port 80, and (e) with neither, the
result is `("", "80")`.  (f) The three concrete examples from the spec,
plus a target with a malformed percent-escape in the userinfo, which
`url.Parse` rejects so that the Host header decides. -/
theorem C3_resolve_host_port :
    (∀ h p hh : String, ':' ∉ h.data → ':' ∉ p.data →
      '[' ∉ (h ++ ":" ++ p).data → ']' ∉ (h ++ ":" ++ p).data →
      resolve "CONNECT" (h ++ ":" ++ p) hh = (h, p)) ∧
    (∀ h hh : String, ':' ∉ h.data → resolve "CONNECT" h hh = (h, "443")) ∧
    (∀ m uri hh : String, m ≠ "CONNECT" →
      (startsWithL uri.data ("http://".data) ||
        startsWithL uri.data ("https://".data)) = true →
      ∀ u, uriParse uri.data = some u →
      resolve m uri hh =
        (⟨(urlSplitHostPort u.host).1⟩,
          ⟨if (urlSplitHostPort u.host).2 = [] then
            (if u.scheme = "https".data then "443".data else "80".data)
          else (urlSplitHostPort u.host).2⟩)) ∧
    (∀ m uri hh : String, m ≠ "CONNECT" →
      (startsWithL uri.data ("http://".data) ||
        startsWithL uri.data ("https://".data)) = false →
      hh ≠ "" → resolve m uri hh = parseHostPort (trimStr hh) "80") ∧
    (∀ m uri hh : String, m ≠ "CONNECT" → uriParse uri.data = none →
      hh ≠ "" → resolve m uri hh = parseHostPort (trimStr hh) "80") ∧
    (∀ m uri : String, m ≠ "CONNECT" →
      (startsWithL uri.data ("http://".data) ||
        startsWithL uri.data ("https://".data)) = false →
      resolve m uri "" = ("", "80")) ∧
    (∀ m uri : String, m ≠ "CONNECT" → uriParse uri.data = none →
      resolve m uri "" = ("", "80")) ∧
    resolve "CONNECT" "site.com:443" "" = ("site.com", "443") ∧
    resolve "GET" "http://site.com/p" "" = ("site.com", "80") ∧
    resolve "GET" "/p" "site.com:8080" = ("site.com", "8080") ∧
    uriParse ("http://a%zz@b.com/x" : String).data = none ∧
    resolve "GET" "http://a%zz@b.com/x" "other.com" = ("other.com", "80") := by
  refine ⟨?_, ?_, ?_, ?_, ?_, ?_, ?_,
    by decide, by decide, by decide, by decide, by decide⟩
  · intro h p hh hch hcp hb1 hb2
    have hdata : (h ++ ":" ++ p).data = h.data ++ ':' :: p.data := by simp
    simp only [resolve, if_pos rfl, parseHostPort, hdata]
    rw [splitHostPort_append h.data p.data hch hcp
      (by rw [← hdata]; exact hb1) (by rw [← hdata]; exact hb2)]
    simp [String_mk_data]
  · intro h hh hch
    simp only [resolve, if_pos rfl, parseHostPort]
    rw [splitHostPort_none h.data hch]
    simp
  · intro m uri hh hm hguard u hu
    simp [resolve, hm, extractHostFromURI, hguard, hu]
  · intro m uri hh hm hguard hne
    simp [resolve, hm, extractHostFromURI, hguard, hne]
  · intro m uri hh hm hu hne
    by_cases hg : (startsWithL uri.data ("http://".data) ||
        startsWithL uri.data ("https://".data)) = true
    · simp [resolve, hm, extractHostFromURI, hg, hu, hne]
    · simp [resolve, hm, extractHostFromURI, hg, hne]
  · intro m uri hm hguard
    simp [resolve, hm, extractHostFromURI, hguard]
  · intro m uri hm hu
    by_cases hg : (startsWithL uri.data ("http://".data) ||
        startsWithL uri.data ("https://".data)) = true
    · simp [resolve, hm, extractHostFromURI, hg, hu]
    · simp [resolve, hm, extractHostFromURI, hg]

/-- Witness for C3 at `CONNECT site.example:8443` and friends. -/
theorem C3_witness :
    resolve "CONNECT" ("site.example" ++ ":" ++ "8443") "" =
      ("site.example", "8443") ∧
    resolve "CONNECT" "portless.example" "" = ("portless.example", "443") ∧
    resolve "GET" "http://site.com/p" "ignored" =
      (⟨(urlSplitHostPort ("site.com".data)).1⟩,
        ⟨if (urlSplitHostPort ("site.com".data)).2 = [] then
          (if ("http".data : List Char) = "https".data then "443".data
           else "80".data)
        else (urlSplitHostPort ("site.com".data)).2⟩) :=
  ⟨C3_resolve_host_port.1 "site.example" "8443" "" (by decide) (by decide)
      (by decide) (by decide),
    C3_resolve_host_port.2.1 "portless.example" "" (by decide),
    C3_resolve_host_port.2.2.1 "GET" "http://site.com/p" "ignored" (by decide)
      (by decide) ⟨"http".data, "site.com".data, "/p".data, ([] : List Char)⟩
      (by decide)⟩

/-! ### Claims C8 and C9: header capture and header forwarding -/

/-- Running the header loop on a blank-line-terminated block of well-formed
header lines (each `c ++ "\n"` with no interior newline, non-empty, and not
the bare-`\r` core of a blank line): every line is collected verbatim in
order, the Host capture is the left fold of `hostCapture` over the lines,
and the bytes after the blank line are left unread. -/
theorem readHeadersFuel_block (cores : List (List Char)) :
    ∀ (fuel : Nat) (rest : List Char) (acc : List String) (hh : String),
    (∀ c ∈ cores, '\n' ∉ c ∧ c ≠ [] ∧ c ≠ ['\r']) →
    ((cores.map (· ++ ['\n'])).flatten).length + (2 + rest.length) ≤ fuel →
    readHeadersFuel fuel ((cores.map (· ++ ['\n'])).flatten ++ '\r' :: '\n' :: rest)
        acc hh =
      (acc ++ cores.map (fun c => (⟨c ++ ['\n']⟩ : String)),
        (cores.map (· ++ ['\n'])).foldl hostCapture hh, rest) := by
  induction cores with
  | nil =>
    intro fuel rest acc hh hwf hfuel
    cases fuel with
    | zero =>
      exact absurd hfuel (by omega)
    | succ f =>
      have ht : takeLine ('\r' :: '\n' :: rest) = some (['\r', '\n'], rest) := by
        simp [takeLine]
      simp [List.map_nil, List.flatten_nil, List.nil_append, readHeadersFuel,
        ht]
  | cons c cs ih =>
    intro fuel rest acc hh hwf hfuel
    have hc := hwf c (List.mem_cons_self c cs)
    have hshape :
        ((c :: cs).map (· ++ ['\n'])).flatten ++ '\r' :: '\n' :: rest =
          c ++ '\n' :: ((cs.map (· ++ ['\n'])).flatten ++ '\r' :: '\n' :: rest) := by
      simp
    cases fuel with
    | zero =>
      exact absurd hfuel (by omega)
    | succ f =>
      have ht :
          takeLine (((c :: cs).map (· ++ ['\n'])).flatten ++ '\r' :: '\n' :: rest) =
            some (c ++ ['\n'], (cs.map (· ++ ['\n'])).flatten ++ '\r' :: '\n' :: rest) := by
        rw [hshape]
        exact takeLine_append c _ hc.1
      have hne1 : ¬ (c ++ ['\n'] = ['\r', '\n']) := by
        intro e
        apply hc.2.2
        have e2 := congrArg List.dropLast e
        simpa using e2
      have hne2 : ¬ (c ++ ['\n'] = ['\n']) := by
        intro e
        apply hc.2.1
        have e2 := congrArg List.dropLast e
        simpa using e2
      simp only [readHeadersFuel, ht]
      rw [if_neg (by simp [hne1, hne2])]
      have hfuel2 :
          ((cs.map (· ++ ['\n'])).flatten).length + (2 + rest.length) ≤ f := by
        have hlen : (((c :: cs).map (· ++ ['\n'])).flatten).length =
            c.length + 1 + ((cs.map (· ++ ['\n'])).flatten).length := by
          simp [List.length_append]
          omega
        omega
      have hrec := ih f rest (acc ++ [String.mk (c ++ ['\n'])])
        (hostCapture hh (c ++ ['\n']))
        (fun x hx => hwf x (List.mem_cons_of_mem c hx)) hfuel2
      rw [hrec]
      simp

/-- Lines that are not Host lines leave the captured value unchanged. -/
theorem foldl_hostCapture_const (ls : List (List Char)) (a : String)
    (h : ∀ l ∈ ls, startsWithL (lowerL l) ("host:".data) = false) :
    ls.foldl hostCapture a = a := by
  induction ls generalizing a with
  | nil => rfl
  | cons x xs ih =>
    rw [List.foldl_cons]
    have hx : hostCapture a x = a := by
      simp [hostCapture, h x (List.mem_cons_self x xs)]
    rw [hx]
    exact ih a fun l hl => h l (List.mem_cons_of_mem x hl)

/-- C8: when several header lines name `Host` (case-insensitively), the
captured Host value is the value of the last such line before the blank
line — each later Host line overwrites the earlier capture. -/
theorem C8_last_host_wins (pre post : List (List Char))
    (hostCore rest : List Char)
    (hwf : ∀ c ∈ pre ++ hostCore :: post, '\n' ∉ c ∧ c ≠ [] ∧ c ≠ ['\r'])
    (hhost : startsWithL (lowerL (hostCore ++ ['\n'])) ("host:".data) = true)
    (hpost : ∀ c ∈ post,
      startsWithL (lowerL (c ++ ['\n'])) ("host:".data) = false) :
    (readHeaders ((((pre ++ hostCore :: post).map (· ++ ['\n'])).flatten) ++
        '\r' :: '\n' :: rest)).2.1 =
      ⟨trimL ((hostCore ++ ['\n']).drop 5)⟩ := by
  unfold readHeaders
  rw [readHeadersFuel_block (pre ++ hostCore :: post) _ rest [] "" hwf
    (by simp [List.length_append]; omega)]
  show ((pre ++ hostCore :: post).map (· ++ ['\n'])).foldl hostCapture "" =
    (⟨trimL ((hostCore ++ ['\n']).drop 5)⟩ : String)
  rw [List.map_append, List.foldl_append, List.map_cons, List.foldl_cons]
  rw [foldl_hostCapture_const (post.map (· ++ ['\n'])) _ fun l hl => by
    rcases List.mem_map.mp hl with ⟨c2, hc2, rfl⟩
    exact hpost c2 hc2]
  simp [hostCapture, hhost]

/-- Witness for C8: two Host lines; the second (`hOsT: b.org:81`) wins. -/
theorem C8_witness :
    (readHeaders ((([("Host: a.com\r").data] ++ ("hOsT: b.org:81 \r").data ::
        [("X: 1\r").data]).map (· ++ ['\n'])).flatten ++
        '\r' :: '\n' :: ("rem").data)).2.1 =
      ⟨trimL ((("hOsT: b.org:81 \r").data ++ ['\n']).drop 5)⟩ :=
  C8_last_host_wins [("Host: a.com\r").data] [("X: 1\r").data]
    ("hOsT: b.org:81 \r").data ("rem").data (by decide) (by decide) (by decide)

/-- C9: capturing the Host header removes nothing from the forwarded
request: with a parsed request line and a well-formed header block, every
received header line — Host lines included — is written verbatim to the
target between the rewritten request line and the terminating blank line,
so the forwarded header block equals the received one. -/
theorem C9_headers_forwarded (clientAddr : String) (lineCore : List Char)
    (cores : List (List Char)) (body : List Char) (blocklist : String → Bool)
    (o : NetOracle)
    (hnl : '\n' ∉ lineCore)
    (hwf : ∀ c ∈ cores, '\n' ∉ c ∧ c ≠ [] ∧ c ≠ ['\r'])
    (hlen : ¬ (fields (lineCore ++ ['\n'])).length < 3)
    (hm : ¬ requestMethod (lineCore ++ ['\n']) = "CONNECT")
    (hnb : isBlocked (resolve (requestMethod (lineCore ++ ['\n']))
        (requestURI (lineCore ++ ['\n']))
        ((cores.map (· ++ ['\n'])).foldl hostCapture "")).1 blocklist = false)
    (hdial : o.dialOk = true) (hwrite : o.reqWriteOk = true) :
    HandleConnection clientAddr
        (lineCore ++ '\n' ::
          ((cores.map (· ++ ['\n'])).flatten ++ '\r' :: '\n' :: body))
        blocklist o =
      { responses := [],
        logs := [⟨clientAddr,
          (resolve (requestMethod (lineCore ++ ['\n']))
            (requestURI (lineCore ++ ['\n']))
            ((cores.map (· ++ ['\n'])).foldl hostCapture "")).1,
          requestMethod (lineCore ++ ['\n']), "OK",
          cleanRequestURI (requestURI (lineCore ++ ['\n']))⟩],
        dials := [joinHostPort
          (resolve (requestMethod (lineCore ++ ['\n']))
            (requestURI (lineCore ++ ['\n']))
            ((cores.map (· ++ ['\n'])).foldl hostCapture "")).1
          (resolve (requestMethod (lineCore ++ ['\n']))
            (requestURI (lineCore ++ ['\n']))
            ((cores.map (· ++ ['\n'])).foldl hostCapture "")).2],
        targetWrites := (requestMethod (lineCore ++ ['\n']) ++ " " ++
            cleanRequestURI (requestURI (lineCore ++ ['\n'])) ++ " " ++
            requestVersion (lineCore ++ ['\n']) ++ "\r\n") ::
          cores.map (fun c => (⟨c ++ ['\n']⟩ : String)) ++ ["\r\n"],
        relayed := true } := by
  have ht : takeLine (lineCore ++ '\n' ::
      ((cores.map (· ++ ['\n'])).flatten ++ '\r' :: '\n' :: body)) =
      some (lineCore ++ ['\n'],
        (cores.map (· ++ ['\n'])).flatten ++ '\r' :: '\n' :: body) :=
    takeLine_append lineCore _ hnl
  have hrh : readHeaders ((cores.map (· ++ ['\n'])).flatten ++ '\r' :: '\n' :: body) =
      (cores.map (fun c => (⟨c ++ ['\n']⟩ : String)),
        (cores.map (· ++ ['\n'])).foldl hostCapture "", body) := by
    unfold readHeaders
    rw [readHeadersFuel_block cores _ body [] "" hwf
      (by simp [List.length_append]; omega)]
    simp
  simp [HandleConnection, ht, hlen, hrh, hnb, hm, handleHTTP, hdial, hwrite]

/-- Witness for C9: a GET request with a Host line and one more header; the
forwarded block is exactly the received one. -/
theorem C9_witness :
    HandleConnection "cl9" (("GET http://a.com/x HTTP/1.1\r").data ++ '\n' ::
        (([("Host: a.com\r").data, ("Accept: text/html\r").data].map
          (· ++ ['\n'])).flatten ++ '\r' :: '\n' :: ("BODY").data))
        (fun _ => false) ⟨true, "", true, true, []⟩ =
      { responses := [],
        logs := [⟨"cl9", "a.com", "GET", "OK", "/x"⟩],
        dials := ["a.com:80"],
        targetWrites := ["GET /x HTTP/1.1\r\n", "Host: a.com\r\n",
          "Accept: text/html\r\n", "\r\n"],
        relayed := true } := by
  have h := C9_headers_forwarded "cl9" ("GET http://a.com/x HTTP/1.1\r").data
      [("Host: a.com\r").data, ("Accept: text/html\r").data] ("BODY").data
      (fun _ => false) ⟨true, "", true, true, []⟩
      (by decide) (by decide) (by decide) (by decide) (by decide) (by decide)
      (by decide)
  rw [h]
  decide

end Proxy
